import Mathlib

/-!
# knex-row: shallow embedding and verification

A shallow embedding of the `@charaverse/knex-row` library (files
`src/row.ts`, `src/query.ts`, `src/connection.ts`) together with proofs of
the specified properties.

Modelling conventions:

* A database/row value is the inductive `Value` (SQL NULL, numbers, strings,
  booleans, dates, and the connection's server-time expression
  `conn.fn.now()` as `Value.now`).
* A JavaScript object holding row data is `RowData`, an association list with
  JS-object semantics: key lookup (`objGet`), key assignment which overwrites
  an existing key in place or appends (`objSet`), and `Object.assign`
  (`objAssign`).  A key that is absent, or holds `undefined`, is modelled as
  `objGet _ _ = none` — exactly the keys for which
  `typeof rowData[col] !== "undefined"` is false.
* A Knex connection is opaque: only its identity matters here, so it is a
  `Nat` tag.  Values assignable to `Row.connection` (including the falsy
  JavaScript values `null`, `undefined` and `""`) are `ConnInput`.
* Asynchronous database effects are made explicit: a method that issues an
  update takes a flag `updateOk : Bool` (whether the awaited query resolves)
  and returns, next to its `Except` result, the list of update queries it
  issued, so "no write is issued" is the statement that this list is empty.
* Errors thrown by this layer are the structured `RowError`:
  `columnNotFound col table` stands for the thrown
  `Column col does not exist for table table` error, and `dbError` for a
  rejection propagated from the underlying connection.
-/

/-- A database/row value.  `now` is the server-time expression
`connection.fn.now()`; `null` is SQL NULL (note `typeof null` is `"object"`,
so a null value still counts as present). -/
inductive Value where
  | null : Value
  | int : Int → Value
  | str : String → Value
  | bool : Bool → Value
  | date : Nat → Value
  | now : Value
  deriving DecidableEq, Repr

/-- Row data: a JavaScript object from column names to values. -/
abbrev RowData := List (String × Value)

/-- JS property read `d[k]`: `none` models `undefined` (key missing). -/
def objGet (d : RowData) (k : String) : Option Value :=
  match d with
  | [] => none
  | (k', v) :: rest => if k' = k then some v else objGet rest k

/-- JS property write `d[k] = v`: overwrites an existing key in place,
otherwise appends. -/
def objSet (d : RowData) (k : String) (v : Value) : RowData :=
  match d with
  | [] => [(k, v)]
  | (k', v') :: rest =>
      if k' = k then (k', v) :: rest else (k', v') :: objSet rest k v

/-- `Object.assign(d, upd)`: assigns the keys of `upd` into `d` in order. -/
def objAssign (d : RowData) (upd : List (String × Value)) : RowData :=
  upd.foldl (fun acc kv => objSet acc kv.1 kv.2) d

/-- Default identifier column name (`ID_COL` in `row.ts`). -/
def ID_COL : String := "id"

/-- Default create-timestamp column name (`TIME_CREATED_COL`). -/
def TIME_CREATED_COL : String := "time_created"

/-- Default update-timestamp column name (`TIME_UPDATED_COL`). -/
def TIME_UPDATED_COL : String := "time_updated"

/-- Default delete-timestamp column name (`TIME_DELETED_COL`). -/
def TIME_DELETED_COL : String := "time_deleted"

/-- Opaque Knex connection: only identity matters in this layer. -/
abbrev Conn := Nat

/-- A value assigned to the `Row.connection` setter.  A real Knex connection
object is always truthy; `null`, `undefined` and `""` are the falsy values the
spec discusses. -/
inductive ConnInput where
  | conn : Conn → ConnInput
  | null : ConnInput
  | undef : ConnInput
  | emptyStr : ConnInput
  deriving DecidableEq, Repr

/-- JS truthiness of a `ConnInput`. -/
def ConnInput.truthy : ConnInput → Bool
  | .conn _ => true
  | _ => false

/-- `value || fallback` as used in the `connection` setter. -/
def ConnInput.orFallback : ConnInput → Conn → Conn
  | .conn c, _ => c
  | _, d => d

/-- Errors raised by this layer: the thrown
`Column col does not exist for table table` error, or a rejection propagated
unmodified from the underlying connection. -/
inductive RowError where
  | columnNotFound (col : String) (table : String)
  | dbError
  deriving DecidableEq, Repr

/-- The `Row` class state (`row.ts`).  All fields except `conn` are
`readonly`. -/
structure Row where
  initialConn : Conn
  conn : Conn
  tableName : String
  rowData : RowData
  idCol : String
  timeCreatedCol : String
  timeUpdatedCol : String
  timeDeletedCol : String
  primaryCols : List String
  deriving Repr

/-- Constructor options of `Row` (optional fields model the `?:` options,
whose defaults resolve in the constructor's destructuring). -/
structure RowOpts where
  conn : Conn
  tableName : String
  rowData : RowData
  idCol : Option String := none
  timeCreatedCol : Option String := none
  timeUpdatedCol : Option String := none
  timeDeletedCol : Option String := none
  primaryCols : Option (List String) := none

/-- The `Row` constructor: resolves defaults and stores the connection both
as `initialConn` and as the current `conn`. -/
def Row.make (opts : RowOpts) : Row :=
  let idCol := opts.idCol.getD ID_COL
  { initialConn := opts.conn
    conn := opts.conn
    tableName := opts.tableName
    rowData := opts.rowData
    idCol := idCol
    timeCreatedCol := opts.timeCreatedCol.getD TIME_CREATED_COL
    timeUpdatedCol := opts.timeUpdatedCol.getD TIME_UPDATED_COL
    timeDeletedCol := opts.timeDeletedCol.getD TIME_DELETED_COL
    primaryCols := opts.primaryCols.getD [idCol] }

/-- The `connection` getter: returns the current `conn`. -/
def Row.connection (r : Row) : Conn := r.conn

/-- The `connection` setter: `this.conn = value || this.initialConn`. -/
def Row.setConnection (r : Row) (value : ConnInput) : Row :=
  { r with conn := value.orFallback r.initialConn }

/-- `Row.isColumn`: `typeof this.rowData[col] !== "undefined"`. -/
def Row.isColumn (r : Row) (col : String) : Bool :=
  (objGet r.rowData col).isSome

/-- `Row.getColumn`: the stored value, or a thrown column-not-found error
naming the column and the table when `isColumn` is false. -/
def Row.getColumn (r : Row) (col : String) : Except RowError Value :=
  match objGet r.rowData col with
  | some v => .ok v
  | none => .error (.columnNotFound col r.tableName)

/-- The loop body of the `primaryKey` getter: `key[col] = this.getColumn(col)`
over `primaryCols`, propagating the first thrown error. -/
def primaryKeyAux (r : Row) : List String → RowData → Except RowError RowData
  | [], key => .ok key
  | col :: rest, key =>
      match r.getColumn col with
      | .ok v => primaryKeyAux r rest (objSet key col v)
      | .error e => .error e

/-- The `primaryKey` getter: a fresh mapping of exactly the `primaryCols`
entries with their current `rowData` values. -/
def Row.primaryKey (r : Row) : Except RowError RowData :=
  primaryKeyAux r r.primaryCols []

/-- A query scoped by `primaryKey` (`this.connection(this.tableName)
.where(this.primaryKey)`), before any verb is chained onto it. -/
structure RowQuery where
  conn : Conn
  table : String
  whereKey : RowData
  deriving DecidableEq, Repr

/-- The `query` getter: builds (but does not execute) the primary-key-scoped
query; computing `primaryKey` can throw. -/
def Row.query (r : Row) : Except RowError RowQuery :=
  (r.primaryKey).map fun key => ⟨r.connection, r.tableName, key⟩

/-- An UPDATE query issued against the database. -/
structure UpdateQuery where
  conn : Conn
  table : String
  whereKey : RowData
  data : List (String × Value)
  deriving DecidableEq, Repr

/-- The pre-flight loop of `setColumns`: returns the error for the first key
of `data` that is not a column, if any. -/
def Row.checkKeys (r : Row) : List String → Option RowError
  | [] => none
  | k :: rest =>
      if r.isColumn k then r.checkKeys rest
      else some (.columnNotFound k r.tableName)

/-- `Row.setColumns`: validates every key of `data` first (throwing on the
first offending key, before any write), then issues
`this.query.update(data)`; if the awaited update resolves (`updateOk`),
merges `data` into `rowData` with `Object.assign`.  The second component is
the list of update queries issued. -/
def Row.setColumns (r : Row) (data : List (String × Value)) (updateOk : Bool) :
    Except RowError Row × List UpdateQuery :=
  match r.checkKeys (data.map Prod.fst) with
  | some e => (.error e, [])
  | none =>
      match r.query with
      | .error e => (.error e, [])
      | .ok q =>
          let uq : UpdateQuery := ⟨q.conn, q.table, q.whereKey, data⟩
          if updateOk then
            (.ok { r with rowData := objAssign r.rowData data }, [uq])
          else
            (.error .dbError, [uq])

/-- `Row.setColumn`: sugar for `setColumns({[col]: value})`. -/
def Row.setColumn (r : Row) (col : String) (value : Value) (updateOk : Bool) :
    Except RowError Row × List UpdateQuery :=
  r.setColumns [(col, value)] updateOk

/-- `Row.delete`: soft-delete, `setColumns({[timeDeletedCol]:
this.connection.fn.now()})`. -/
def Row.softDelete (r : Row) (updateOk : Bool) :
    Except RowError Row × List UpdateQuery :=
  r.setColumns [(r.timeDeletedCol, Value.now)] updateOk

/-- `Row.restore`: `setColumns({[timeDeletedCol]: null})`. -/
def Row.restore (r : Row) (updateOk : Bool) :
    Except RowError Row × List UpdateQuery :=
  r.setColumns [(r.timeDeletedCol, Value.null)] updateOk

/-- Default pagination limit (`DEFAULT_PAGINATION_LIMIT` in `query.ts`). -/
def DEFAULT_PAGINATION_LIMIT : Nat := 20

/-- State of a Knex select-query builder chain, as used by `query.ts`:
caller `where` callbacks are recorded as opaque row predicates, `whereNull`
clauses as the list of columns required NULL, and `limit`/`offset` as the
most recent value set (as in Knex, a later call overwrites). -/
structure QB where
  conn : Conn
  table : String
  preds : List (RowData → Bool)
  whereNullCols : List String
  limitVal : Option Int
  offsetVal : Option Int

/-- `conn(tableName)`: a fresh query builder. -/
def QB.init (conn : Conn) (table : String) : QB :=
  ⟨conn, table, [], [], none, none⟩

/-- `query.where(cb)`: the caller's callback adds a filter. -/
def QB.addWhere (q : QB) (p : RowData → Bool) : QB :=
  { q with preds := q.preds ++ [p] }

/-- `query.whereNull(col)`. -/
def QB.whereNull (q : QB) (col : String) : QB :=
  { q with whereNullCols := q.whereNullCols ++ [col] }

/-- `query.limit(n)`. -/
def QB.limit (q : QB) (n : Int) : QB :=
  { q with limitVal := some n }

/-- `query.offset(n)`. -/
def QB.offset (q : QB) (n : Int) : QB :=
  { q with offsetVal := some n }

/-- Whether a stored record satisfies all WHERE clauses of the query:
every caller predicate holds and every `whereNull` column is SQL NULL. -/
def QB.matches (q : QB) (row : RowData) : Bool :=
  q.preds.all (fun p => p row) &&
    q.whereNullCols.all (fun c => objGet row c == some Value.null)

/-- Executing the built query against the table contents `db` (in the
external database's order): filter by the WHERE clauses, then apply OFFSET
and LIMIT. -/
def QB.run (q : QB) (db : List RowData) : List RowData :=
  let filtered := db.filter q.matches
  let afterOffset :=
    match q.offsetVal with
    | some o => filtered.drop o.toNat
    | none => filtered
  match q.limitVal with
  | some l => afterOffset.take l.toNat
  | none => afterOffset

/-- The `pagination` option of `findAll`. -/
structure Pagination where
  page : Option Int := none
  limit : Option Int := none

/-- Options shared by `findAll`, `find` and `countAll` (`SelectOpts` in
`query.ts`); `whereCb` is the `where` option, `before` the escape-hatch
callback receiving the query builder. -/
structure SelectOpts where
  conn : Conn
  tableName : String
  whereCb : Option (RowData → Bool) := none
  includeDeleted : Option Bool := none
  includeDeletedCol : Option String := none
  before : Option (QB → QB) := none

/-- Options of `findAll`: `SelectOpts` plus `pagination`. -/
structure FindAllOpts extends SelectOpts where
  pagination : Option Pagination := none

/-- The query built by `findAll`, in the code's order: caller `where`, then
the soft-delete `whereNull` unless `includeDeleted`, then `limit`/`offset`
from `pagination`, then the `before` callback. -/
def findAllQuery (opts : FindAllOpts) : QB :=
  let includeDeleted := opts.includeDeleted.getD false
  let includeDeletedCol := opts.includeDeletedCol.getD TIME_DELETED_COL
  let query := QB.init opts.conn opts.tableName
  let query :=
    match opts.whereCb with
    | some p => query.addWhere p
    | none => query
  let query := if !includeDeleted then query.whereNull includeDeletedCol else query
  let query :=
    match opts.pagination with
    | some pg =>
        let limit := pg.limit.getD DEFAULT_PAGINATION_LIMIT
        let page := pg.page.getD 1
        (query.limit limit).offset ((page - 1) * limit)
    | none => query
  match opts.before with
  | some f => f query
  | none => query

/-- `findAll`: executes the built query against the table contents `db` and
wraps every result record as a `Row` with the same connection and table
name. -/
def findAll (opts : FindAllOpts) (db : List RowData) : List Row :=
  ((findAllQuery opts).run db).map fun rowData =>
    Row.make { conn := opts.conn, tableName := opts.tableName, rowData := rowData }

/-- `find` passes its options through to `findAll` unchanged; the
`pagination` field does not exist on its option set, hence is absent. -/
def SelectOpts.toFindAllOpts (opts : SelectOpts) : FindAllOpts :=
  { opts with pagination := none }

/-- `find`: `const [result] = await findAll(opts); return result ?? null`. -/
def find (opts : SelectOpts) (db : List RowData) : Option Row :=
  match findAll opts.toFindAllOpts db with
  | [] => none
  | result :: _ => some result

/-- The `countBy` option: one column name or an ordered list. -/
inductive CountBy where
  | single : String → CountBy
  | multiple : List String → CountBy

/-- `Array.isArray(countBy) ? countBy : [countBy]`. -/
def CountBy.toList : CountBy → List String
  | .single s => [s]
  | .multiple l => l

/-- Options of `countAll`: `SelectOpts` plus `countBy` (`before` exists on
the type but `countAll` never reads it). -/
structure CountAllOpts extends SelectOpts where
  countBy : Option CountBy := none

/-- The query built by `countAll`: caller `where`, then the soft-delete
`whereNull` unless `includeDeleted`; no pagination and no `before` hook. -/
def countAllQuery (opts : CountAllOpts) : QB :=
  let includeDeleted := opts.includeDeleted.getD false
  let includeDeletedCol := opts.includeDeletedCol.getD TIME_DELETED_COL
  let query := QB.init opts.conn opts.tableName
  let query :=
    match opts.whereCb with
    | some p => query.addWhere p
    | none => query
  if !includeDeleted then query.whereNull includeDeletedCol else query

/-- `countAll`: `SELECT COUNT(countBy) ...` over the filtered records; SQL
`COUNT(cols)` counts the matching records whose count columns are all
non-NULL. -/
def countAll (opts : CountAllOpts) (db : List RowData) : Nat :=
  let countCols := (opts.countBy.getD (.multiple [ID_COL])).toList
  (((countAllQuery opts).run db).filter fun row =>
    countCols.all fun c => !(objGet row c == some Value.null)).length

/-! ## Helper lemmas -/

theorem objGet_objSet (d : RowData) (k : String) (v : Value) (k' : String) :
    objGet (objSet d k v) k' = if k = k' then some v else objGet d k' := by
  induction d with
  | nil =>
      by_cases h : k = k' <;> simp [objSet, objGet, h]
  | cons kv rest ih =>
      obtain ⟨k₀, v₀⟩ := kv
      by_cases h₀ : k₀ = k
      · subst h₀
        by_cases h : k₀ = k' <;> simp [objSet, objGet, h]
      · by_cases h : k₀ = k'
        · subst h
          have : ¬ k = k₀ := fun hc => h₀ hc.symm
          simp [objSet, objGet, h₀, this]
        · simp [objSet, objGet, h₀, h, ih]

theorem objAssign_single (d : RowData) (k : String) (v : Value) :
    objAssign d [(k, v)] = objSet d k v := rfl

theorem checkKeys_none (r : Row) (ks : List String)
    (h : ∀ k ∈ ks, r.isColumn k) : r.checkKeys ks = none := by
  induction ks with
  | nil => rfl
  | cons k rest ih =>
      have hk : r.isColumn k := h k (List.mem_cons_self k rest)
      simp [Row.checkKeys, hk]
      exact ih fun j hj => h j (List.mem_cons_of_mem k hj)

theorem checkKeys_first_bad (r : Row) (pre : List String) (k : String)
    (post : List String) (hpre : ∀ j ∈ pre, r.isColumn j)
    (hk : ¬ r.isColumn k) :
    r.checkKeys (pre ++ k :: post) = some (.columnNotFound k r.tableName) := by
  induction pre with
  | nil => simp [Row.checkKeys, hk]
  | cons j rest ih =>
      have hj : r.isColumn j := hpre j (List.mem_cons_self j rest)
      simp [Row.checkKeys, hj]
      exact ih fun j' hj' => hpre j' (List.mem_cons_of_mem j hj')

theorem getColumn_eq_ok (r : Row) (col : String) (v : Value)
    (h : objGet r.rowData col = some v) : r.getColumn col = .ok v := by
  simp [Row.getColumn, h]

theorem getColumn_eq_error (r : Row) (col : String)
    (h : r.isColumn col = false) :
    r.getColumn col = .error (.columnNotFound col r.tableName) := by
  unfold Row.getColumn
  unfold Row.isColumn at h
  cases hg : objGet r.rowData col with
  | none => rfl
  | some v => rw [hg] at h; simp at h

theorem isColumn_iff (r : Row) (col : String) :
    r.isColumn col = true ↔ ∃ v, objGet r.rowData col = some v := by
  unfold Row.isColumn
  cases hg : objGet r.rowData col <;> simp

theorem primaryKeyAux_ok_of_all (r : Row) (cols : List String)
    (h : ∀ c ∈ cols, r.isColumn c) :
    ∀ acc, ∃ m, primaryKeyAux r cols acc = .ok m ∧
      ∀ c, objGet m c =
        if c ∈ cols then objGet r.rowData c else objGet acc c := by
  induction cols with
  | nil =>
      intro acc
      exact ⟨acc, rfl, fun c => by simp⟩
  | cons col rest ih =>
      intro acc
      have hcol : r.isColumn col := h col (List.mem_cons_self col rest)
      obtain ⟨v, hv⟩ := (isColumn_iff r col).mp hcol
      obtain ⟨m, hm, hprop⟩ :=
        ih (fun c hc => h c (List.mem_cons_of_mem col hc)) (objSet acc col v)
      refine ⟨m, ?_, ?_⟩
      · simp [primaryKeyAux, getColumn_eq_ok r col v hv, hm]
      · intro c
        rcases hprop c with hc
        by_cases hmem : c ∈ rest
        · simp [hmem, hc, List.mem_cons]
        · rw [hc]
          simp only [hmem, if_false]
          rw [objGet_objSet]
          by_cases hcc : col = c
          · subst hcc
            simp [hv]
          · have hne : ¬ c = col := fun hcc' => hcc hcc'.symm
            have : ¬ c ∈ (col :: rest) := by
              simp [List.mem_cons, hmem, hne]
            simp [hcc, this]

theorem primaryKeyAux_first_bad (r : Row) (pre : List String) (c : String)
    (post : List String) (hpre : ∀ j ∈ pre, r.isColumn j)
    (hc : ¬ r.isColumn c) :
    ∀ acc, primaryKeyAux r (pre ++ c :: post) acc =
      .error (.columnNotFound c r.tableName) := by
  induction pre with
  | nil =>
      intro acc
      have : r.isColumn c = false := by
        cases h : r.isColumn c
        · rfl
        · exact absurd h hc
      simp [primaryKeyAux, getColumn_eq_error r c this]
  | cons j rest ih =>
      intro acc
      have hj : r.isColumn j := hpre j (List.mem_cons_self j rest)
      obtain ⟨v, hv⟩ := (isColumn_iff r j).mp hj
      simp [primaryKeyAux, getColumn_eq_ok r j v hv]
      exact ih (fun j' hj' => hpre j' (List.mem_cons_of_mem j hj')) _

theorem setColumns_ok_inv (r : Row) (data : List (String × Value))
    (ok : Bool) (r' : Row) (qs : List UpdateQuery)
    (h : r.setColumns data ok = (.ok r', qs)) :
    ok = true ∧
    r.checkKeys (data.map Prod.fst) = none ∧
    ∃ pk, r.primaryKey = .ok pk ∧
      r' = { r with rowData := objAssign r.rowData data } ∧
      qs = [⟨r.conn, r.tableName, pk, data⟩] := by
  unfold Row.setColumns at h
  cases hck : r.checkKeys (data.map Prod.fst) with
  | some e => rw [hck] at h; simp at h
  | none =>
      rw [hck] at h
      cases hpk : r.primaryKey with
      | error e =>
          have hq : r.query = .error e := by
            simp [Row.query, hpk, Except.map]
          rw [hq] at h; simp at h
      | ok pk =>
          have hq : r.query = .ok ⟨r.connection, r.tableName, pk⟩ := by
            simp [Row.query, hpk, Except.map]
          rw [hq] at h
          cases ok with
          | false => simp at h
          | true =>
              simp at h
              exact ⟨rfl, rfl, pk, rfl, h.1.symm, h.2.symm⟩

theorem setColumns_ok_eval (r : Row) (data : List (String × Value))
    (pk : RowData) (hck : r.checkKeys (data.map Prod.fst) = none)
    (hpk : r.primaryKey = .ok pk) :
    r.setColumns data true =
      (.ok { r with rowData := objAssign r.rowData data },
       [⟨r.conn, r.tableName, pk, data⟩]) := by
  have hq : r.query = .ok ⟨r.connection, r.tableName, pk⟩ := by
    simp [Row.query, hpk, Except.map]
  simp [Row.setColumns, hck, hq, Row.connection]

theorem setColumns_badkey (r : Row) (data : List (String × Value))
    (ok : Bool) (e : RowError)
    (hck : r.checkKeys (data.map Prod.fst) = some e) :
    r.setColumns data ok = (.error e, []) := by
  simp [Row.setColumns, hck]

theorem mem_run (q : QB) (db : List RowData) (rd : RowData)
    (h : rd ∈ q.run db) : rd ∈ db ∧ q.matches rd = true := by
  unfold QB.run at h
  have hf : rd ∈ db.filter q.matches := by
    cases hl : q.limitVal with
    | none =>
        rw [hl] at h
        cases ho : q.offsetVal with
        | none => rw [ho] at h; exact h
        | some o => rw [ho] at h; exact List.drop_subset _ _ h
    | some l =>
        rw [hl] at h
        have h' := List.take_subset _ _ h
        cases ho : q.offsetVal with
        | none => rw [ho] at h'; exact h'
        | some o => rw [ho] at h'; exact List.drop_subset _ _ h'
  exact ⟨List.mem_of_mem_filter hf, List.of_mem_filter hf⟩

theorem whereNull_holds_of_mem_run (q : QB) (db : List RowData)
    (col : String) (hcol : col ∈ q.whereNullCols) (rd : RowData)
    (h : rd ∈ q.run db) : objGet rd col = some Value.null := by
  have hm := (mem_run q db rd h).2
  unfold QB.matches at hm
  have := (Bool.and_eq_true _ _).mp hm
  have hall := List.all_eq_true.mp this.2 col hcol
  simpa using hall

theorem matches_of_no_whereNull (q : QB) (hw : q.whereNullCols = [])
    (rd : RowData) : q.matches rd = (q.preds.all fun p => p rd) := by
  simp [QB.matches, hw]

theorem findAllQuery_before_none (conn : Conn) (tableName : String)
    (whereCb : Option (RowData → Bool)) (includeDeleted : Option Bool)
    (includeDeletedCol : Option String) (pagination : Option Pagination) :
    findAllQuery
        { conn := conn, tableName := tableName, whereCb := whereCb,
          includeDeleted := includeDeleted,
          includeDeletedCol := includeDeletedCol, before := none,
          pagination := pagination } =
      (let query := QB.init conn tableName
       let query :=
         match whereCb with
         | some p => query.addWhere p
         | none => query
       let query :=
         if !(includeDeleted.getD false) then
           query.whereNull (includeDeletedCol.getD TIME_DELETED_COL)
         else query
       match pagination with
       | some pg =>
           let limit := pg.limit.getD DEFAULT_PAGINATION_LIMIT
           let page := pg.page.getD 1
           (query.limit limit).offset ((page - 1) * limit)
       | none => query) := by
  rfl

theorem findAllQuery_whereNullCols (opts : FindAllOpts)
    (hb : opts.before = none) :
    (findAllQuery opts).whereNullCols =
      if opts.includeDeleted.getD false then []
      else [opts.includeDeletedCol.getD TIME_DELETED_COL] := by
  obtain ⟨⟨conn, tableName, whereCb, includeDeleted, includeDeletedCol, bef⟩,
    pagination⟩ := opts
  simp only [FindAllOpts.mk.injEq] at hb ⊢
  subst hb
  cases whereCb <;> cases pagination <;>
    rcases hd : includeDeleted.getD false <;>
    simp [findAllQuery, QB.init, QB.addWhere, QB.whereNull, QB.limit,
      QB.offset, hd]

theorem findAllQuery_preds (opts : FindAllOpts) (hb : opts.before = none) :
    (findAllQuery opts).preds = opts.whereCb.toList := by
  obtain ⟨⟨conn, tableName, whereCb, includeDeleted, includeDeletedCol, bef⟩,
    pagination⟩ := opts
  simp only [FindAllOpts.mk.injEq] at hb ⊢
  subst hb
  cases whereCb <;> cases pagination <;>
    rcases hd : includeDeleted.getD false <;>
    simp [findAllQuery, QB.init, QB.addWhere, QB.whereNull, QB.limit,
      QB.offset, hd]

theorem findAllQuery_pagination (opts : FindAllOpts)
    (hb : opts.before = none) (pg : Pagination)
    (hp : opts.pagination = some pg) :
    (findAllQuery opts).limitVal
        = some (pg.limit.getD DEFAULT_PAGINATION_LIMIT) ∧
    (findAllQuery opts).offsetVal
        = some ((pg.page.getD 1 - 1) * pg.limit.getD DEFAULT_PAGINATION_LIMIT) := by
  obtain ⟨⟨conn, tableName, whereCb, includeDeleted, includeDeletedCol, bef⟩,
    pagination⟩ := opts
  simp only [FindAllOpts.mk.injEq] at hb hp ⊢
  subst hb
  subst hp
  cases whereCb <;>
    rcases hd : includeDeleted.getD false <;>
    simp [findAllQuery, QB.init, QB.addWhere, QB.whereNull, QB.limit,
      QB.offset, hd]

theorem countAllQuery_whereNullCols (opts : CountAllOpts) :
    (countAllQuery opts).whereNullCols =
      if opts.includeDeleted.getD false then []
      else [opts.includeDeletedCol.getD TIME_DELETED_COL] := by
  obtain ⟨⟨conn, tableName, whereCb, includeDeleted, includeDeletedCol, bef⟩,
    countBy⟩ := opts
  cases whereCb <;>
    rcases hd : includeDeleted.getD false <;>
    simp [countAllQuery, QB.init, QB.addWhere, QB.whereNull, hd]

theorem findAll_mem (opts : FindAllOpts) (db : List RowData) (row : Row)
    (h : row ∈ findAll opts db) :
    ∃ rd, rd ∈ (findAllQuery opts).run db ∧
      row = Row.make
        { conn := opts.conn, tableName := opts.tableName, rowData := rd } := by
  unfold findAll at h
  obtain ⟨rd, hrd, hrow⟩ := List.mem_map.mp h
  exact ⟨rd, hrd, hrow.symm⟩

/-! ## Concrete instances used by the witnesses -/

/-- A row fetched from table `kansen`, not soft-deleted (`time_deleted` is
SQL NULL). -/
def sampleRow : Row :=
  Row.make
    { conn := 7, tableName := "kansen",
      rowData := [("id", .int 1), ("score", .int 10), ("time_deleted", .null)] }

/-- A row fetched from `kansen` that is already soft-deleted. -/
def sampleDeletedRow : Row :=
  Row.make
    { conn := 7, tableName := "kansen",
      rowData := [("id", .int 2), ("score", .int 20),
                  ("time_deleted", .date 5)] }

/-- A row fetched without selecting the `id` and `time_deleted` columns. -/
def sampleBareRow : Row :=
  Row.make
    { conn := 7, tableName := "kansen", rowData := [("score", .int 30)] }

/-! ## Claims -/

/-- A row returned by `find` is a member of the corresponding `findAll`
result. -/
theorem find_some_mem (opts : SelectOpts) (db : List RowData) (row : Row)
    (h : find opts db = some row) :
    row ∈ findAll opts.toFindAllOpts db := by
  unfold find at h
  cases hf : findAll opts.toFindAllOpts db with
  | nil => rw [hf] at h; simp at h
  | cons r rest =>
      rw [hf] at h
      simp at h
      subst h
      exact List.mem_cons_self r rest

/-- C5: `isColumn col` is true exactly when `col` is a key of `rowData`
holding a non-undefined value (a key explicitly set to SQL NULL still counts
as present); when `isColumn` holds, `getColumn` returns the stored value
unchanged (no coercion), and otherwise it throws the column-not-found error
naming the column and the table. -/
theorem isColumn_getColumn_C5 (r : Row) (col : String) :
    (r.isColumn col = true ↔ ∃ v, objGet r.rowData col = some v) ∧
    (∀ v, objGet r.rowData col = some v → r.getColumn col = .ok v) ∧
    (r.isColumn col = false →
      r.getColumn col = .error (.columnNotFound col r.tableName)) :=
  ⟨isColumn_iff r col,
   fun v h => getColumn_eq_ok r col v h,
   fun h => getColumn_eq_error r col h⟩

theorem isColumn_getColumn_C5_witness :
    sampleRow.getColumn "time_deleted" = .ok .null ∧
    sampleRow.isColumn "time_deleted" = true ∧
    sampleRow.getColumn "nope"
      = .error (.columnNotFound "nope" "kansen") :=
  ⟨(isColumn_getColumn_C5 sampleRow "time_deleted").2.1 .null (by decide),
   (isColumn_getColumn_C5 sampleRow "time_deleted").1.mpr ⟨.null, by decide⟩,
   (isColumn_getColumn_C5 sampleRow "nope").2.2 (by decide)⟩

/-- C6: `initialConn` is never modified (neither by the `connection` setter
nor by a successful `setColumns`); assigning a (truthy) connection makes the
getter return it; assigning any falsy value (`null`, `undefined`, `""`)
resets the current connection to `initialConn`; in particular assigning
`null` after a reassignment restores the originally-constructed
connection. -/
theorem connection_reset_C6 (r : Row) (v : ConnInput) :
    ((r.setConnection v).initialConn = r.initialConn) ∧
    (∀ c, v = .conn c → (r.setConnection v).connection = c) ∧
    (v.truthy = false → (r.setConnection v).connection = r.initialConn) ∧
    (∀ c, ((r.setConnection (.conn c)).setConnection .null).connection
        = r.initialConn) ∧
    (∀ data ok r' qs, r.setColumns data ok = (.ok r', qs) →
      r'.initialConn = r.initialConn) := by
  refine ⟨rfl, ?_, ?_, fun c => rfl, ?_⟩
  · intro c h
    subst h
    rfl
  · intro h
    cases v with
    | conn c => simp [ConnInput.truthy] at h
    | null => rfl
    | undef => rfl
    | emptyStr => rfl
  · intro data ok r' qs h
    obtain ⟨-, -, pk, -, hr', -⟩ := setColumns_ok_inv r data ok r' qs h
    rw [hr']

theorem connection_reset_C6_witness :
    ((sampleRow.setConnection (.conn 99)).setConnection .null).connection
        = sampleRow.initialConn ∧
    (sampleRow.setConnection .emptyStr).connection = sampleRow.initialConn ∧
    (sampleRow.setConnection (.conn 99)).connection = 99 :=
  ⟨(connection_reset_C6 sampleRow .null).2.2.2.1 99,
   (connection_reset_C6 sampleRow .emptyStr).2.2.1 rfl,
   (connection_reset_C6 sampleRow (.conn 99)).2.1 99 rfl⟩

/-- C8: when every primary column is present in `rowData`, `primaryKey`
returns a mapping whose keys are exactly the `primaryCols` with their current
`rowData` values; if some primary column is missing, `primaryKey` throws the
column-not-found error for the first missing column instead of producing a
partial mapping. -/
theorem primaryKey_spec_C8 (r : Row) :
    ((∀ c ∈ r.primaryCols, r.isColumn c) →
      ∃ m, r.primaryKey = .ok m ∧
        (∀ c ∈ r.primaryCols, objGet m c = objGet r.rowData c) ∧
        (∀ c, c ∉ r.primaryCols → objGet m c = none)) ∧
    (∀ pre c post, r.primaryCols = pre ++ c :: post →
      (∀ j ∈ pre, r.isColumn j) → ¬ r.isColumn c →
      r.primaryKey = .error (.columnNotFound c r.tableName)) := by
  constructor
  · intro h
    obtain ⟨m, hm, hprop⟩ := primaryKeyAux_ok_of_all r r.primaryCols h []
    refine ⟨m, hm, ?_, ?_⟩
    · intro c hc
      rw [hprop c]
      simp [hc]
    · intro c hc
      rw [hprop c]
      simp [hc, objGet]
  · intro pre c post hsplit hpre hc
    unfold Row.primaryKey
    rw [hsplit]
    exact primaryKeyAux_first_bad r pre c post hpre hc []

theorem primaryKey_spec_C8_witness :
    (∃ m, sampleRow.primaryKey = .ok m ∧ objGet m "id" = some (.int 1) ∧
      objGet m "score" = none) ∧
    sampleBareRow.primaryKey = .error (.columnNotFound "id" "kansen") := by
  constructor
  · obtain ⟨m, hm, hin, hout⟩ :=
      (primaryKey_spec_C8 sampleRow).1 (by decide)
    refine ⟨m, hm, ?_, ?_⟩
    · rw [hin "id" (by decide)]; decide
    · exact hout "score" (by decide)
  · exact (primaryKey_spec_C8 sampleBareRow).2 [] "id" []
      (by decide) (by simp) (by decide)

/-- C2: `setColumns` checks every key of `data` with `isColumn` before any
update query is issued.  If some key is not a column, it throws the
column-not-found error naming the first offending key and the table, and no
update query is issued (so `rowData` is untouched).  Only when all keys pass
(and the primary key is computable) is a single update executed, scoped by
`primaryKey` against the row's connection and table; on its success `data`
is merged into `rowData` via `Object.assign`. -/
theorem setColumns_spec_C2 (r : Row) (data : List (String × Value))
    (ok : Bool) :
    (∀ pre k post, data.map Prod.fst = pre ++ k :: post →
      (∀ j ∈ pre, r.isColumn j) → ¬ r.isColumn k →
      r.setColumns data ok
        = (.error (.columnNotFound k r.tableName), [])) ∧
    (∀ pk, (∀ k ∈ data.map Prod.fst, r.isColumn k) →
      r.primaryKey = .ok pk → ok = true →
      r.setColumns data ok =
        (.ok { r with rowData := objAssign r.rowData data },
         [⟨r.conn, r.tableName, pk, data⟩])) := by
  constructor
  · intro pre k post hsplit hpre hk
    apply setColumns_badkey
    rw [hsplit]
    exact checkKeys_first_bad r pre k post hpre hk
  · intro pk hall hpk hok
    subst hok
    exact setColumns_ok_eval r data pk (checkKeys_none r _ hall) hpk

theorem setColumns_spec_C2_witness :
    sampleRow.setColumns [("score", .int 99), ("nope", .int 5)] true
      = (.error (.columnNotFound "nope" "kansen"), []) ∧
    sampleRow.setColumns [("score", .int 99)] true
      = (.ok { sampleRow with
                rowData := objAssign sampleRow.rowData [("score", .int 99)] },
         [⟨7, "kansen", [("id", .int 1)], [("score", .int 99)]⟩]) := by
  constructor
  · exact (setColumns_spec_C2 sampleRow
        [("score", .int 99), ("nope", .int 5)] true).1
      ["score"] "nope" [] (by decide)
      (by intro j hj; simp at hj; subst hj; decide) (by decide)
  · have h := (setColumns_spec_C2 sampleRow [("score", .int 99)] true).2
      [("id", .int 1)]
      (by intro k hk; simp at hk; subst hk; decide) (by rfl) rfl
    rw [h]
    rfl

/-- C4: after a `setColumns({k: v})` call that completes successfully,
`getColumn k` returns `v`; `getColumn` reads the merged in-memory `rowData`
and issues no query (in this embedding, `getColumn` has no effect
component). -/
theorem setColumn_then_get_C4 (r : Row) (k : String) (v : Value)
    (r' : Row) (qs : List UpdateQuery)
    (h : r.setColumns [(k, v)] true = (.ok r', qs)) :
    r'.getColumn k = .ok v := by
  obtain ⟨-, -, pk, -, hr', -⟩ := setColumns_ok_inv r [(k, v)] true r' qs h
  subst hr'
  apply getColumn_eq_ok
  show objGet (objAssign r.rowData [(k, v)]) k = some v
  rw [objAssign_single, objGet_objSet]
  simp

theorem setColumn_then_get_C4_witness :
    ∃ r' qs, sampleRow.setColumns [("score", Value.int 42)] true
        = (.ok r', qs) ∧ r'.getColumn "score" = .ok (.int 42) := by
  refine ⟨_, _, rfl, ?_⟩
  exact setColumn_then_get_C4 sampleRow "score" (.int 42) _ _ rfl

/-- C9: on a row whose `timeDeletedCol` is present and whose primary key is
computable, with the update resolving: `restore()` on an already-restored row
(timestamp SQL NULL) succeeds and leaves the timestamp NULL, and `delete()`
on an already-deleted row (timestamp non-NULL) succeeds — no error — and
re-sets the timestamp to the connection's server-time expression
`connection.fn.now()`. -/
theorem delete_restore_idempotent_C9 (r : Row) (pk : RowData)
    (hpk : r.primaryKey = .ok pk) :
    (objGet r.rowData r.timeDeletedCol = some .null →
      ∃ r' q, r.restore true = (.ok r', [q]) ∧
        objGet r'.rowData r.timeDeletedCol = some .null) ∧
    (∀ v, objGet r.rowData r.timeDeletedCol = some v → v ≠ .null →
      ∃ r' q, r.softDelete true = (.ok r', [q]) ∧
        objGet r'.rowData r.timeDeletedCol = some .now ∧
        q.data = [(r.timeDeletedCol, Value.now)]) := by
  constructor
  · intro h
    have hck : r.checkKeys ([(r.timeDeletedCol, Value.null)].map Prod.fst)
        = none := by
      apply checkKeys_none
      intro k hk
      simp at hk
      subst hk
      simp [Row.isColumn, h]
    refine ⟨_, _, setColumns_ok_eval r _ pk hck hpk, ?_⟩
    show objGet (objAssign r.rowData [(r.timeDeletedCol, Value.null)])
        r.timeDeletedCol = some .null
    rw [objAssign_single, objGet_objSet]
    simp
  · intro v h hv
    have hck : r.checkKeys ([(r.timeDeletedCol, Value.now)].map Prod.fst)
        = none := by
      apply checkKeys_none
      intro k hk
      simp at hk
      subst hk
      simp [Row.isColumn, h]
    refine ⟨_, _, setColumns_ok_eval r _ pk hck hpk, ?_, rfl⟩
    show objGet (objAssign r.rowData [(r.timeDeletedCol, Value.now)])
        r.timeDeletedCol = some .now
    rw [objAssign_single, objGet_objSet]
    simp

theorem delete_restore_idempotent_C9_witness :
    (∃ r' q, sampleRow.restore true = (.ok r', [q]) ∧
      objGet r'.rowData sampleRow.timeDeletedCol = some .null) ∧
    (∃ r' q, sampleDeletedRow.softDelete true = (.ok r', [q]) ∧
      objGet r'.rowData sampleDeletedRow.timeDeletedCol = some .now ∧
      q.data = [(sampleDeletedRow.timeDeletedCol, Value.now)]) :=
  ⟨(delete_restore_idempotent_C9 sampleRow [("id", .int 1)] (by rfl)).1
      (by decide),
   (delete_restore_idempotent_C9 sampleDeletedRow [("id", .int 2)]
      (by rfl)).2 (.date 5) (by decide) (by decide)⟩

/-- C10: on a row fetched without the configured `timeDeletedCol` (the key is
missing from `rowData`), both `delete()` and `restore()` throw the
column-not-found error naming `timeDeletedCol` and the table before issuing
any write (the issued-query list is empty), regardless of whether the update
would have succeeded; such a row cannot be soft-deleted or restored. -/
theorem delete_restore_missing_col_C10 (r : Row) (ok : Bool)
    (h : objGet r.rowData r.timeDeletedCol = none) :
    r.softDelete ok
      = (.error (.columnNotFound r.timeDeletedCol r.tableName), []) ∧
    r.restore ok
      = (.error (.columnNotFound r.timeDeletedCol r.tableName), []) := by
  have hk : ¬ r.isColumn r.timeDeletedCol := by
    simp [Row.isColumn, h]
  constructor
  · apply setColumns_badkey
    exact checkKeys_first_bad r [] r.timeDeletedCol [] (by simp) hk
  · apply setColumns_badkey
    exact checkKeys_first_bad r [] r.timeDeletedCol [] (by simp) hk

theorem delete_restore_missing_col_C10_witness :
    sampleBareRow.softDelete true
      = (.error (.columnNotFound "time_deleted" "kansen"), []) ∧
    sampleBareRow.restore false
      = (.error (.columnNotFound "time_deleted" "kansen"), []) :=
  ⟨(delete_restore_missing_col_C10 sampleBareRow true (by decide)).1,
   (delete_restore_missing_col_C10 sampleBareRow false (by decide)).2⟩

/-- Select options used by the `find`/`findAll` witnesses. -/
def sampleSelectOpts : SelectOpts :=
  { conn := 7, tableName := "kansen" }

/-- C7: `find` runs `findAll` on its own option set with `pagination` absent
and returns the first element of the result, or null (`none`) when the
result is empty. -/
theorem find_first_C7 (opts : SelectOpts) (db : List RowData) :
    (opts.toFindAllOpts.pagination = none) ∧
    (findAll opts.toFindAllOpts db = [] → find opts db = none) ∧
    (∀ r rest, findAll opts.toFindAllOpts db = r :: rest →
      find opts db = some r) := by
  refine ⟨rfl, ?_, ?_⟩
  · intro h
    unfold find
    rw [h]
  · intro r rest h
    unfold find
    rw [h]

/-- The single live record of the `find` witness, as a wrapped `Row`. -/
def sampleFoundRow : Row :=
  Row.make
    { conn := 7, tableName := "kansen",
      rowData := [("id", Value.int 1), ("time_deleted", Value.null)] }

theorem find_first_C7_witness :
    find sampleSelectOpts [] = none ∧
    find sampleSelectOpts
        [[("id", Value.int 1), ("time_deleted", Value.null)]]
      = some sampleFoundRow :=
  ⟨(find_first_C7 sampleSelectOpts []).2.1 rfl,
   (find_first_C7 sampleSelectOpts
      [[("id", Value.int 1), ("time_deleted", Value.null)]]).2.2 _ [] rfl⟩

/-- C1: in `findAll` (with no `before` escape hatch), in `find`, and in
`countAll`, when `includeDeleted` is unset or false the built query carries
the `whereNull` soft-delete filter on the configured `includeDeletedCol`
(default `time_deleted`), and consequently every record produced by the
executed query — hence every record `countAll` counts — has SQL NULL there,
so records with a non-null deleted timestamp are excluded; when
`includeDeleted` is true the filter is not added: the built query has no
`whereNull` clause and matching does not depend on the deleted column. -/
theorem soft_delete_filter_C1 (fopts : FindAllOpts) (sopts : SelectOpts)
    (copts : CountAllOpts) (db : List RowData) :
    (fopts.before = none → fopts.includeDeleted.getD false = false →
      (fopts.includeDeletedCol.getD TIME_DELETED_COL)
          ∈ (findAllQuery fopts).whereNullCols ∧
      ∀ row ∈ findAll fopts db,
        objGet row.rowData (fopts.includeDeletedCol.getD TIME_DELETED_COL)
          = some .null) ∧
    (fopts.before = none → fopts.includeDeleted = some true →
      (findAllQuery fopts).whereNullCols = [] ∧
      ∀ rd, (findAllQuery fopts).matches rd
          = ((findAllQuery fopts).preds.all fun p => p rd)) ∧
    (sopts.before = none → sopts.includeDeleted.getD false = false →
      ∀ row, find sopts db = some row →
        objGet row.rowData (sopts.includeDeletedCol.getD TIME_DELETED_COL)
          = some .null) ∧
    (copts.includeDeleted.getD false = false →
      (copts.includeDeletedCol.getD TIME_DELETED_COL)
          ∈ (countAllQuery copts).whereNullCols ∧
      ∀ rd ∈ (countAllQuery copts).run db,
        objGet rd (copts.includeDeletedCol.getD TIME_DELETED_COL)
          = some .null) ∧
    (copts.includeDeleted = some true →
      (countAllQuery copts).whereNullCols = []) := by
  refine ⟨?_, ?_, ?_, ?_, ?_⟩
  · intro hb hd
    have hw := findAllQuery_whereNullCols fopts hb
    rw [hd] at hw
    simp at hw
    refine ⟨by rw [hw]; exact List.mem_singleton.mpr rfl, ?_⟩
    intro row hrow
    obtain ⟨rd, hrd, hmk⟩ := findAll_mem fopts db row hrow
    have : row.rowData = rd := by rw [hmk]; rfl
    rw [this]
    exact whereNull_holds_of_mem_run _ db _
      (by rw [hw]; exact List.mem_singleton.mpr rfl) rd hrd
  · intro hb hd
    have hw := findAllQuery_whereNullCols fopts hb
    rw [hd] at hw
    simp at hw
    exact ⟨hw, fun rd => matches_of_no_whereNull _ hw rd⟩
  · intro hb hd
    intro row hrow
    have hmem := find_some_mem sopts db row hrow
    have hb' : sopts.toFindAllOpts.before = none := hb
    have hd' : sopts.toFindAllOpts.includeDeleted.getD false = false := hd
    have hw := findAllQuery_whereNullCols sopts.toFindAllOpts hb'
    rw [hd'] at hw
    simp at hw
    obtain ⟨rd, hrd, hmk⟩ := findAll_mem sopts.toFindAllOpts db row hmem
    have : row.rowData = rd := by rw [hmk]; rfl
    rw [this]
    exact whereNull_holds_of_mem_run _ db _
      (by rw [hw]; exact List.mem_singleton.mpr rfl) rd hrd
  · intro hd
    have hw := countAllQuery_whereNullCols copts
    rw [hd] at hw
    simp at hw
    refine ⟨by rw [hw]; exact List.mem_singleton.mpr rfl, ?_⟩
    intro rd hrd
    exact whereNull_holds_of_mem_run _ db _
      (by rw [hw]; exact List.mem_singleton.mpr rfl) rd hrd
  · intro hd
    have hw := countAllQuery_whereNullCols copts
    rw [hd] at hw
    simpa using hw

/-- Count options with `includeDeleted: true`, for the C1 witness. -/
def sampleCountDeletedOpts : CountAllOpts :=
  { conn := 7, tableName := "kansen", includeDeleted := some true }

/-- Count options with `includeDeleted` unset, for the C1 witness. -/
def sampleCountOpts : CountAllOpts :=
  { conn := 7, tableName := "kansen" }

/-- A two-record table, one record soft-deleted, for the C1 witness. -/
def sampleDb : List RowData :=
  [[("id", Value.int 3), ("time_deleted", Value.date 9)],
   [("id", Value.int 4), ("time_deleted", Value.null)]]

theorem soft_delete_filter_C1_witness :
    ("time_deleted"
        ∈ (findAllQuery sampleSelectOpts.toFindAllOpts).whereNullCols ∧
      ∀ row ∈ findAll sampleSelectOpts.toFindAllOpts sampleDb,
        objGet row.rowData "time_deleted" = some .null) ∧
    (countAllQuery sampleCountDeletedOpts).whereNullCols = [] := by
  constructor
  · exact (soft_delete_filter_C1 sampleSelectOpts.toFindAllOpts
      sampleSelectOpts sampleCountOpts sampleDb).1 rfl rfl
  · exact (soft_delete_filter_C1 sampleSelectOpts.toFindAllOpts
      sampleSelectOpts sampleCountDeletedOpts []).2.2.2.2 rfl

/-- C3: `findAll` builds its query in the code's fixed order — the `before`
callback is applied last, to the query already holding the caller `where`
predicate, the soft-delete filter unless `includeDeleted`, and, when
pagination is requested, LIMIT `limit` (default 20) and OFFSET
`(page - 1) * limit` with `page` 1-indexed (default 1).  The executed result
records are each wrapped as a `Row` sharing the caller's connection and
table name, and an empty execution result yields the empty array rather
than a failure. -/
theorem findAll_build_C3 (opts : FindAllOpts) (db : List RowData) :
    (findAllQuery opts
        = (opts.before.getD id) (findAllQuery { opts with before := none })) ∧
    (opts.before = none →
      (findAllQuery opts).preds = opts.whereCb.toList ∧
      (findAllQuery opts).whereNullCols =
        (if opts.includeDeleted.getD false then []
         else [opts.includeDeletedCol.getD TIME_DELETED_COL]) ∧
      (∀ pg, opts.pagination = some pg →
        (findAllQuery opts).limitVal
            = some (pg.limit.getD DEFAULT_PAGINATION_LIMIT) ∧
        (findAllQuery opts).offsetVal
            = some ((pg.page.getD 1 - 1)
                * pg.limit.getD DEFAULT_PAGINATION_LIMIT))) ∧
    (findAll opts db = ((findAllQuery opts).run db).map fun rd =>
        Row.make { conn := opts.conn, tableName := opts.tableName,
                   rowData := rd }) ∧
    (∀ row ∈ findAll opts db,
      row.connection = opts.conn ∧ row.initialConn = opts.conn ∧
        row.tableName = opts.tableName) ∧
    ((findAllQuery opts).run db = [] → findAll opts db = []) := by
  refine ⟨?_, ?_, rfl, ?_, ?_⟩
  · obtain ⟨⟨conn, tableName, whereCb, includeDeleted, includeDeletedCol,
      bef⟩, pagination⟩ := opts
    cases bef <;> rfl
  · intro hb
    exact ⟨findAllQuery_preds opts hb, findAllQuery_whereNullCols opts hb,
      fun pg hp => findAllQuery_pagination opts hb pg hp⟩
  · intro row hrow
    obtain ⟨rd, _, hmk⟩ := findAll_mem opts db row hrow
    rw [hmk]
    exact ⟨rfl, rfl, rfl⟩
  · intro h
    unfold findAll
    rw [h]
    rfl

/-- `findAll` options asking for page 2 with limit 4, for the C3 witness. -/
def samplePagedOpts : FindAllOpts :=
  { conn := 7, tableName := "kansen",
    pagination := some { page := some 2, limit := some 4 } }

theorem findAll_build_C3_witness :
    ((findAllQuery samplePagedOpts).limitVal = some 4 ∧
     (findAllQuery samplePagedOpts).offsetVal = some 4) ∧
    findAll sampleSelectOpts.toFindAllOpts [] = [] := by
  constructor
  · exact ((findAll_build_C3 samplePagedOpts []).2.1 rfl).2.2
      { page := some 2, limit := some 4 } rfl
  · exact (findAll_build_C3 sampleSelectOpts.toFindAllOpts []).2.2.2.2 rfl
